import Mathlib

/-!
Verification of the session coordination and broadcast engine of the
automatic-poll-generator backend (src/backend/app/main.py).

The embedding models the `ConnectionManager` class, the `websocket_endpoint`
message dispatch loop, and the `WebSocketDisconnect` reconciliation pass.
Python dicts are modelled as insertion-ordered association lists
(`List (String × α)`): lookup finds the first matching key, assignment
replaces the first occurrence in place or appends at the end, and `del`
removes the entry.  Iterating a dict while its size changes raises
`RuntimeError` in Python; the reconciliation model tracks this with a
`raised` flag checked before each further iteration step.
-/

namespace PollApp

/-- Python dict lookup `d[k]` / `d.get(k)`: first entry with the key. -/
def dictGet {α : Type} (d : List (String × α)) (k : String) : Option α :=
  match d with
  | [] => none
  | (k1, v) :: rest => if k1 = k then some v else dictGet rest k

/-- Python dict assignment `d[k] = v`: replace the first occurrence in
place, or append at the end when the key is absent. -/
def dictSet {α : Type} (d : List (String × α)) (k : String) (v : α) :
    List (String × α) :=
  match d with
  | [] => [(k, v)]
  | (k1, v1) :: rest =>
      if k1 = k then (k, v) :: rest else (k1, v1) :: dictSet rest k v

/-- Python `del d[k]`: drop the first entry with the key. -/
def dictDel {α : Type} (d : List (String × α)) (k : String) :
    List (String × α) :=
  match d with
  | [] => []
  | (k1, v1) :: rest =>
      if k1 = k then rest else (k1, v1) :: dictDel rest k

/-- A participant entry as stored in `event['participants']`. -/
structure Participant where
  id : String
  name : String
  isHost : Bool
deriving Repr, DecidableEq

/-- A ticket entry as stored in `event['tickets']`; `votes` is the Python
dict mapping participant id to vote value. -/
structure Ticket where
  key : String
  votes : List (String × Int)
deriving Repr, DecidableEq

/-- A session aggregate as stored in `manager.events[event_id]`. -/
structure Event where
  id : String
  name : String
  createdAt : String
  hostId : String
  participants : List Participant
  tickets : List Ticket
  currentTicketIndex : Nat
  status : String
deriving Repr, DecidableEq

/-- The mutable state of `ConnectionManager`: the connection registry is
abstracted to the set of registered identities (the WebSocket objects
carry no state the protocol reads). -/
structure ManagerState where
  activeConnections : List String
  events : List (String × Event)
deriving Repr, DecidableEq

/-- Outbound message bodies (the `type` tag plus type-specific payload). -/
inductive MsgBody where
  | EVENT_CREATED (event : Event) (eventId : String)
  | EVENT_UPDATED (event : Option Event)
  | VOTE_RECEIVED (event : Event) (ticketKey : String) (userId : String) (vote : Int)
  | PARTICIPANT_LEFT (userId : String) (event : Option Event)
  | ERROR (message : String)
deriving Repr, DecidableEq

/-- One delivered outbound message: recipient identity and body. -/
structure Sent where
  dest : String
  body : MsgBody
deriving Repr, DecidableEq

/-- `ConnectionManager.send_personal_message`: deliver only when the
identity has a registered connection, else silently do nothing. -/
def send_personal_message (m : ManagerState) (body : MsgBody)
    (user_id : String) : List Sent :=
  if m.activeConnections.contains user_id then [⟨user_id, body⟩] else []

/-- `ConnectionManager.broadcast_to_event`: when the event exists, deliver
to every participant whose id has a registered connection (in participant
list order); when it does not exist, deliver nothing. -/
def broadcast_to_event (m : ManagerState) (body : MsgBody)
    (event_id : String) : List Sent :=
  match dictGet m.events event_id with
  | none => []
  | some ev =>
      ev.participants.filterMap fun p =>
        if m.activeConnections.contains p.id then some ⟨p.id, body⟩ else none

/-- The session dict literal built by `ConnectionManager.create_event`. -/
def newEvent (event_id name host_id host_name now : String) : Event :=
  { id := event_id
    name := name
    createdAt := now
    hostId := host_id
    participants := [{ id := host_id, name := host_name, isHost := true }]
    tickets := []
    currentTicketIndex := 0
    status := "active" }

/-- `ConnectionManager.create_event`. -/
def create_event (m : ManagerState) (event_id name host_id host_name now : String) :
    ManagerState :=
  { m with events := dictSet m.events event_id (newEvent event_id name host_id host_name now) }

/-- `ConnectionManager.join_event`: append a non-host participant when the
event exists, else do nothing. -/
def join_event (m : ManagerState) (event_id user_id user_name : String) :
    ManagerState :=
  match dictGet m.events event_id with
  | none => m
  | some ev =>
      { m with
        events := dictSet m.events event_id
          { ev with participants :=
              ev.participants ++ [{ id := user_id, name := user_name, isHost := false }] } }

/-- `ConnectionManager.leave_event`: filter the participant out; delete
the session when the list becomes empty. -/
def leave_event (m : ManagerState) (event_id user_id : String) : ManagerState :=
  match dictGet m.events event_id with
  | none => m
  | some ev =>
      let ps := ev.participants.filter fun p => p.id ≠ user_id
      if ps.isEmpty then { m with events := dictDel m.events event_id }
      else { m with events := dictSet m.events event_id { ev with participants := ps } }

/-- The `for ticket in event['tickets']` loop of the `VOTE` branch: set
`ticket['votes'][userId] = vote` on the first ticket whose key matches,
then `break`; leave every other ticket untouched. -/
def voteTickets (ts : List Ticket) (ticket_key user_id : String) (vote : Int) :
    List Ticket :=
  match ts with
  | [] => []
  | t :: rest =>
      if t.key = ticket_key then
        { t with votes := dictSet t.votes user_id vote } :: rest
      else t :: voteTickets rest ticket_key user_id vote

/-- The fields an inbound `payload` dict may carry; `none` models an
absent key, on which a required access `data['payload'][...]` raises
`KeyError` while `.get(...)` falls back to its default. -/
structure Payload where
  name : Option String := none
  eventId : Option String := none
  ticketKey : Option String := none
  vote : Option Int := none
deriving Repr, DecidableEq

/-- An inbound message after reading its `type` tag. -/
inductive InMsg where
  | REGISTER_USER (payload : Payload)
  | CREATE_EVENT (payload : Payload)
  | JOIN_EVENT (payload : Payload)
  | LEAVE_EVENT (payload : Payload)
  | VOTE (payload : Payload)
deriving Repr, DecidableEq

/-- Outcome of handling one inbound message: state as left by the branch,
messages delivered, and whether an uncaught exception (`KeyError` from a
missing payload field) escaped the dispatch — such an exception is not a
`WebSocketDisconnect`, so it terminates `websocket_endpoint`. -/
structure HandleResult where
  state : ManagerState
  sent : List Sent
  raised : Bool
deriving Repr, DecidableEq

/-- One iteration of the `websocket_endpoint` receive loop: the
`data['type']` dispatch at main.py lines 330-402.  `freshId` stands for
the `str(uuid.uuid4())` drawn in the `CREATE_EVENT` branch and `now` for
`datetime.utcnow().isoformat()`. -/
def handleMessage (m : ManagerState) (userId : String) (msg : InMsg)
    (freshId now : String) : HandleResult :=
  match msg with
  | .REGISTER_USER _ => ⟨m, [], false⟩
  | .CREATE_EVENT p =>
      match p.name with
      | none => ⟨m, [], true⟩
      | some nm =>
          let m1 := create_event m freshId nm userId (p.name.getD "Anonymous") now
          match dictGet m1.events freshId with
          | none => ⟨m1, [], true⟩
          | some ev =>
              ⟨m1, send_personal_message m1 (.EVENT_CREATED ev freshId) userId, false⟩
  | .JOIN_EVENT p =>
      match p.eventId with
      | none => ⟨m, [], true⟩
      | some eid =>
          if (dictGet m.events eid).isSome then
            let m1 := join_event m eid userId (p.name.getD "Anonymous")
            match dictGet m1.events eid with
            | none => ⟨m1, [], true⟩
            | some ev =>
                ⟨m1, broadcast_to_event m1 (.EVENT_UPDATED (some ev)) eid, false⟩
          else
            ⟨m, send_personal_message m (.ERROR "Event not found") userId, false⟩
  | .LEAVE_EVENT p =>
      match p.eventId with
      | none => ⟨m, [], true⟩
      | some eid =>
          let m1 := leave_event m eid userId
          ⟨m1, broadcast_to_event m1 (.EVENT_UPDATED (dictGet m1.events eid)) eid, false⟩
  | .VOTE p =>
      match p.eventId with
      | none => ⟨m, [], true⟩
      | some eid =>
          match p.ticketKey with
          | none => ⟨m, [], true⟩
          | some tk =>
              match p.vote with
              | none => ⟨m, [], true⟩
              | some v =>
                  match dictGet m.events eid with
                  | none => ⟨m, [], false⟩
                  | some ev =>
                      let ev1 := { ev with tickets := voteTickets ev.tickets tk userId v }
                      let m1 := { m with events := dictSet m.events eid ev1 }
                      ⟨m1, broadcast_to_event m1 (.VOTE_RECEIVED ev1 tk userId v) eid, false⟩

/-- The `for event_id, event in manager.events.items()` loop of the
`WebSocketDisconnect` handler.  `pending` is the key sequence the dict
iterator would yield; `changed` records whether a deletion has occurred,
in which case the very next `__next__` call raises
`RuntimeError: dictionary changed size during iteration` — before the
next entry (or the normal loop exit) is reached. -/
def reconcileLoop (m : ManagerState) (userId : String) (pending : List String)
    (changed : Bool) : HandleResult :=
  if changed then ⟨m, [], true⟩
  else
    match pending with
    | [] => ⟨m, [], false⟩
    | eid :: rest =>
        match dictGet m.events eid with
        | none => reconcileLoop m userId rest changed
        | some ev =>
            if ev.participants.any (fun p => p.id = userId) then
              let m1 := leave_event m eid userId
              let out := broadcast_to_event m1
                (.PARTICIPANT_LEFT userId (dictGet m1.events eid)) eid
              let r := reconcileLoop m1 userId rest (dictGet m1.events eid).isNone
              ⟨r.state, out ++ r.sent, r.raised⟩
            else reconcileLoop m userId rest changed

/-- The `except WebSocketDisconnect` block (main.py lines 404-416):
unregister the connection, then walk every session the identity
participates in, removing it and broadcasting `PARTICIPANT_LEFT`. -/
def websocket_disconnect (m : ManagerState) (userId : String) : HandleResult :=
  let m0 : ManagerState :=
    { m with activeConnections := m.activeConnections.erase userId }
  reconcileLoop m0 userId (m0.events.map Prod.fst) false

/-- One observable step against the shared manager: an inbound message
from a connected identity, or a connection loss. -/
inductive Step where
  | msg (userId : String) (inMsg : InMsg) (freshId now : String)
  | disconnect (userId : String)
deriving Repr, DecidableEq

/-- The state left behind by one step (outputs discarded; on an uncaught
exception the loop terminates with the state as mutated so far). -/
def applyStep (m : ManagerState) (s : Step) : ManagerState :=
  match s with
  | .msg u im f n => (handleMessage m u im f n).state
  | .disconnect u => (websocket_disconnect m u).state

/-- Fold a sequence of steps over the manager state. -/
def run (m : ManagerState) (steps : List Step) : ManagerState :=
  match steps with
  | [] => m
  | s :: rest => run (applyStep m s) rest

/-- A freshly started process: some set of accepted connections, no
sessions (`manager.events` initialised to the empty dict). -/
def initState (conns : List String) : ManagerState :=
  ⟨conns, []⟩

/-- The participant list the store holds for a session id, empty when the
session is absent. -/
def participantsOf (m : ManagerState) (eid : String) : List Participant :=
  match dictGet m.events eid with
  | none => []
  | some ev => ev.participants

/-- The ticket list the store holds for a session id, empty when the
session is absent. -/
def ticketsOf (m : ManagerState) (eid : String) : List Ticket :=
  match dictGet m.events eid with
  | none => []
  | some ev => ev.tickets

/-- First ticket with the given key, as the `VOTE` loop would find it. -/
def findTicket (ts : List Ticket) (tk : String) : Option Ticket :=
  match ts with
  | [] => none
  | t :: rest => if t.key = tk then some t else findTicket rest tk

/-- Number of entries a dict-as-association-list holds for a key. -/
def countKey {α : Type} (d : List (String × α)) (k : String) : Nat :=
  (d.filter fun q => q.1 = k).length

/-- Recognise a `VOTE_RECEIVED` body. -/
def isVoteReceived : MsgBody → Bool
  | .VOTE_RECEIVED _ _ _ _ => true
  | _ => false

/-- A step that never appends a duplicate participant id: every step except
a `JOIN_EVENT` whose sender already appears in the target session's
participant list (the source performs no de-duplication on join). -/
def stepOk (m : ManagerState) (s : Step) : Bool :=
  match s with
  | .msg uid (.JOIN_EVENT p) _ _ =>
      match p.eventId with
      | none => true
      | some eid =>
          match dictGet m.events eid with
          | none => true
          | some ev => ev.participants.all fun q => q.id ≠ uid
  | _ => true

/-- Every step of the sequence satisfies `stepOk` at the state it runs in. -/
def okRun (m : ManagerState) : List Step → Bool
  | [] => true
  | s :: rest => stepOk m s && okRun (applyStep m s) rest

/-- A two-session state: identity u created session A (sole participant)
and then joined session B created by w — reached through the protocol. -/
def stTwoSessions : ManagerState :=
  run (initState ["u", "w"])
    [ .msg "u" (.CREATE_EVENT { name := some "SessA" }) "A" "t0"
    , .msg "w" (.CREATE_EVENT { name := some "SessB" }) "B" "t1"
    , .msg "u" (.JOIN_EVENT { eventId := some "B" }) "unused" "t2" ]

/-- A one-session state: h created session S and u joined it. -/
def stOneSession : ManagerState :=
  run (initState ["h", "u"])
    [ .msg "h" (.CREATE_EVENT { name := some "Sprint 4" }) "S" "t0"
    , .msg "u" (.JOIN_EVENT { eventId := some "S" }) "unused" "t1" ]

/-- A state whose single session holds a ticket with key T1 and no votes
(tickets are seeded outside the specified message set). -/
def stWithTicket : ManagerState :=
  { activeConnections := ["h", "u"]
    events := [("S",
      { id := "S", name := "Sprint 4", createdAt := "t0", hostId := "h"
        participants := [{ id := "h", name := "Sprint 4", isHost := true },
                         { id := "u", name := "Anonymous", isHost := false }]
        tickets := [{ key := "T1", votes := [] }]
        currentTicketIndex := 0
        status := "active" })] }

/-- An event-level predicate holding of every session in a store. -/
def DInv (P : Event → Prop) (d : List (String × Event)) : Prop :=
  ∀ kv ∈ d, P kv.2

/-- The participant ids of a session are pairwise distinct. -/
def idsNodup (ev : Event) : Prop :=
  (ev.participants.map Participant.id).Nodup

/-- Stability of an event predicate under the removal `LEAVE_EVENT` and
disconnect reconciliation perform (stated for the surviving-session
branch; deletion needs no event-level fact). -/
def LeaveStable (P : Event → Prop) : Prop :=
  ∀ (ev : Event) (uid : String), P ev →
    (ev.participants.filter fun p => p.id ≠ uid) ≠ [] →
    P { ev with participants := ev.participants.filter fun p => p.id ≠ uid }

theorem dictGet_dictSet_self {α : Type} (d : List (String × α)) (k : String) (v : α) :
    dictGet (dictSet d k v) k = some v := by
  induction d with
  | nil => simp [dictSet, dictGet]
  | cons hd tl ih =>
      obtain ⟨k1, v1⟩ := hd
      by_cases h : k1 = k
      · simp [dictSet, dictGet, h]
      · simp [dictSet, dictGet, h, ih]

theorem mem_of_dictGet {α : Type} {d : List (String × α)} {k : String} {v : α}
    (h : dictGet d k = some v) : (k, v) ∈ d := by
  induction d with
  | nil => simp [dictGet] at h
  | cons hd tl ih =>
      obtain ⟨k1, v1⟩ := hd
      by_cases hk : k1 = k
      · simp [dictGet, hk] at h
        subst hk; subst h
        exact List.mem_cons_self _ _
      · simp [dictGet, hk] at h
        exact List.mem_cons_of_mem _ (ih h)

theorem mem_of_mem_dictSet {α : Type} {d : List (String × α)} {k : String} {v : α}
    {kv : String × α} (h : kv ∈ dictSet d k v) : kv ∈ d ∨ kv = (k, v) := by
  induction d with
  | nil =>
      simp [dictSet] at h
      exact Or.inr h
  | cons hd tl ih =>
      obtain ⟨k1, v1⟩ := hd
      by_cases hk : k1 = k
      · simp only [dictSet, hk, if_pos rfl] at h
        rcases List.mem_cons.mp h with h1 | h1
        · exact Or.inr h1
        · exact Or.inl (List.mem_cons_of_mem _ h1)
      · simp only [dictSet, hk, if_neg hk] at h
        rcases List.mem_cons.mp h with h1 | h1
        · exact Or.inl (h1 ▸ List.mem_cons_self _ _)
        · rcases ih h1 with h2 | h2
          · exact Or.inl (List.mem_cons_of_mem _ h2)
          · exact Or.inr h2

theorem mem_of_mem_dictDel {α : Type} {d : List (String × α)} {k : String}
    {kv : String × α} (h : kv ∈ dictDel d k) : kv ∈ d := by
  induction d with
  | nil => simp [dictDel] at h
  | cons hd tl ih =>
      obtain ⟨k1, v1⟩ := hd
      by_cases hk : k1 = k
      · simp only [dictDel, if_pos hk] at h
        exact List.mem_cons_of_mem _ h
      · simp only [dictDel, if_neg hk] at h
        rcases List.mem_cons.mp h with h1 | h1
        · exact h1 ▸ List.mem_cons_self _ _
        · exact List.mem_cons_of_mem _ (ih h1)

theorem dictSet_dictSet {α : Type} (d : List (String × α)) (k : String) (v1 v2 : α) :
    dictSet (dictSet d k v1) k v2 = dictSet d k v2 := by
  induction d with
  | nil => simp [dictSet]
  | cons hd tl ih =>
      obtain ⟨k1, w⟩ := hd
      by_cases hk : k1 = k
      · simp [dictSet, hk]
      · simp [dictSet, hk, ih]

theorem dictSet_self_of_get {α : Type} {d : List (String × α)} {k : String} {v : α}
    (h : dictGet d k = some v) : dictSet d k v = d := by
  induction d with
  | nil => simp [dictGet] at h
  | cons hd tl ih =>
      obtain ⟨k1, v1⟩ := hd
      by_cases hk : k1 = k
      · simp [dictGet, hk] at h
        simp [dictSet, hk, h]
      · simp [dictGet, hk] at h
        simp [dictSet, hk, ih h]

theorem countKey_dictSet {α : Type} (d : List (String × α)) (k : String) (v : α) :
    countKey (dictSet d k v) k = max (countKey d k) 1 := by
  induction d with
  | nil => simp [dictSet, countKey]
  | cons hd tl ih =>
      obtain ⟨k1, v1⟩ := hd
      by_cases hk : k1 = k
      · simp [dictSet, countKey, hk, List.filter] at ih ⊢
      · simp [dictSet, countKey, hk, List.filter] at ih ⊢
        omega

theorem DInv.of_get {P : Event → Prop} {d : List (String × Event)} {k : String}
    {ev : Event} (h : DInv P d) (hg : dictGet d k = some ev) : P ev :=
  h _ (mem_of_dictGet hg)

theorem DInv.set {P : Event → Prop} {d : List (String × Event)} {k : String}
    {ev : Event} (h : DInv P d) (hv : P ev) : DInv P (dictSet d k ev) := by
  intro kv hm
  rcases mem_of_mem_dictSet hm with h1 | h1
  · exact h _ h1
  · rw [h1]; exact hv

theorem DInv.del {P : Event → Prop} {d : List (String × Event)} {k : String}
    (h : DInv P d) : DInv P (dictDel d k) := fun _kv hm => h _ (mem_of_mem_dictDel hm)

/-- Hypotheses under which an event-level predicate survives every
mutation the protocol can perform on a stored session. -/
structure EventPredStable (P : Event → Prop) : Prop where
  create : ∀ eid nm hid hname now1, P (newEvent eid nm hid hname now1)
  join : ∀ (ev : Event) (uid unm : String), P ev →
    P { ev with participants :=
          ev.participants ++ [{ id := uid, name := unm, isHost := false }] }
  leave : LeaveStable P
  vote : ∀ (ev : Event) (tk uid : String) (v : Int), P ev →
    P { ev with tickets := voteTickets ev.tickets tk uid v }

theorem leave_event_DInv {P : Event → Prop} (hs : LeaveStable P)
    {m : ManagerState} (h : DInv P m.events) (eid uid : String) :
    DInv P (leave_event m eid uid).events := by
  unfold leave_event
  cases hg : dictGet m.events eid with
  | none => exact h
  | some ev =>
      simp only
      split
      · exact h.del
      · rename_i hne
        exact h.set (hs ev uid (h.of_get hg)
          (by simpa [List.isEmpty_iff] using hne))

theorem handleMessage_DInv {P : Event → Prop} (hs : EventPredStable P)
    {m : ManagerState} (h : DInv P m.events) (u : String) (im : InMsg)
    (f n : String) : DInv P (handleMessage m u im f n).state.events := by
  cases im with
  | REGISTER_USER p => exact h
  | CREATE_EVENT p =>
      cases hp : p.name with
      | none => simpa [handleMessage, hp] using h
      | some nm =>
          simp only [handleMessage, hp]
          cases hg : dictGet (create_event m f nm u (Option.getD (some nm) "Anonymous") n).events f with
          | none => simpa [create_event] using h.set (hs.create _ _ _ _ _)
          | some ev => simpa [create_event] using h.set (hs.create _ _ _ _ _)
  | JOIN_EVENT p =>
      cases hp : p.eventId with
      | none => simpa [handleMessage, hp] using h
      | some eid =>
          simp only [handleMessage, hp]
          cases hg : dictGet m.events eid with
          | none => simpa [hg] using h
          | some ev =>
              have hj : DInv P (join_event m eid u (p.name.getD "Anonymous")).events := by
                simpa [join_event, hg] using h.set (hs.join ev u _ (h.of_get hg))
              simp only [hg, Option.isSome_some, if_pos]
              cases hg2 : dictGet (join_event m eid u (p.name.getD "Anonymous")).events eid with
              | none => simpa [hg2] using hj
              | some ev2 => simpa [hg2] using hj
  | LEAVE_EVENT p =>
      cases hp : p.eventId with
      | none => simpa [handleMessage, hp] using h
      | some eid =>
          simpa [handleMessage, hp] using leave_event_DInv hs.leave h eid u
  | VOTE p =>
      cases hp : p.eventId with
      | none => simpa [handleMessage, hp] using h
      | some eid =>
          cases hq : p.ticketKey with
          | none => simpa [handleMessage, hp, hq] using h
          | some tk =>
              cases hr : p.vote with
              | none => simpa [handleMessage, hp, hq, hr] using h
              | some v =>
                  simp only [handleMessage, hp, hq, hr]
                  cases hg : dictGet m.events eid with
                  | none => simpa [hg] using h
                  | some ev =>
                      simpa [hg] using h.set (hs.vote ev tk u v (h.of_get hg))

theorem reconcileLoop_DInv {P : Event → Prop} (hs : LeaveStable P)
    (u : String) (pending : List String) :
    ∀ (m : ManagerState) (changed : Bool), DInv P m.events →
      DInv P (reconcileLoop m u pending changed).state.events := by
  induction pending with
  | nil =>
      intro m changed h
      cases changed <;> simpa [reconcileLoop] using h
  | cons eid rest ih =>
      intro m changed h
      cases changed with
      | true => simpa [reconcileLoop] using h
      | false =>
          rw [reconcileLoop]
          simp only [Bool.false_eq_true, if_neg, not_false_iff]
          cases hg : dictGet m.events eid with
          | none => exact ih m false h
          | some ev =>
              simp only
              by_cases ha : ev.participants.any fun p => p.id = u
              · simp only [ha, if_pos]
                exact ih _ _ (leave_event_DInv hs h eid u)
              · simp only [ha, if_neg, Bool.false_eq_true, not_false_iff]
                exact ih m false h

theorem applyStep_DInv {P : Event → Prop} (hs : EventPredStable P)
    {m : ManagerState} (h : DInv P m.events) (s : Step) :
    DInv P (applyStep m s).events := by
  cases s with
  | msg u im f n => exact handleMessage_DInv hs h u im f n
  | disconnect u => exact reconcileLoop_DInv hs.leave u _ _ false h

theorem run_DInv {P : Event → Prop} (hs : EventPredStable P) (steps : List Step) :
    ∀ {m : ManagerState}, DInv P m.events → DInv P (run m steps).events := by
  induction steps with
  | nil => intro m h; exact h
  | cons s rest ih => intro m h; exact ih (applyStep_DInv hs h s)

theorem initState_DInv (P : Event → Prop) (conns : List String) :
    DInv P (initState conns).events := by
  intro kv hm
  simp [initState] at hm

theorem leaveStable_idsNodup : LeaveStable idsNodup := by
  intro ev uid h _
  unfold idsNodup at h ⊢
  exact List.Nodup.sublist (List.Sublist.map Participant.id (List.filter_sublist _)) h

theorem handleMessage_idsNodup {m : ManagerState} (h : DInv idsNodup m.events)
    (u : String) (im : InMsg) (f n : String)
    (hok : stepOk m (.msg u im f n) = true) :
    DInv idsNodup (handleMessage m u im f n).state.events := by
  cases im with
  | REGISTER_USER p => exact h
  | CREATE_EVENT p =>
      cases hp : p.name with
      | none => simpa [handleMessage, hp] using h
      | some nm =>
          simp only [handleMessage, hp]
          cases hg : dictGet (create_event m f nm u (Option.getD (some nm) "Anonymous") n).events f with
          | none => simpa [create_event] using h.set (by simp [idsNodup, newEvent])
          | some ev => simpa [create_event] using h.set (by simp [idsNodup, newEvent])
  | JOIN_EVENT p =>
      cases hp : p.eventId with
      | none => simpa [handleMessage, hp] using h
      | some eid =>
          simp only [handleMessage, hp]
          cases hg : dictGet m.events eid with
          | none => simpa [hg] using h
          | some ev =>
              have hnot : ∀ q ∈ ev.participants, q.id ≠ u := by
                simp only [stepOk, hp, hg] at hok
                simpa using hok
              have hnew : idsNodup { ev with participants :=
                  ev.participants ++
                    [{ id := u, name := p.name.getD "Anonymous", isHost := false }] } := by
                have hev := h.of_get hg
                unfold idsNodup at hev ⊢
                simp only [List.map_append, List.map_cons, List.map_nil]
                rw [List.nodup_append]
                refine ⟨hev, List.nodup_singleton _, fun a ha hb => ?_⟩
                rcases List.mem_map.mp ha with ⟨q, hq, rfl⟩
                simp only [List.mem_singleton] at hb
                exact hnot q hq hb
              have hj : DInv idsNodup (join_event m eid u (p.name.getD "Anonymous")).events := by
                simpa [join_event, hg] using h.set hnew
              simp only [hg, Option.isSome_some, if_pos]
              cases hg2 : dictGet (join_event m eid u (p.name.getD "Anonymous")).events eid with
              | none => simpa [hg2] using hj
              | some ev2 => simpa [hg2] using hj
  | LEAVE_EVENT p =>
      cases hp : p.eventId with
      | none => simpa [handleMessage, hp] using h
      | some eid =>
          simpa [handleMessage, hp] using leave_event_DInv leaveStable_idsNodup h eid u
  | VOTE p =>
      cases hp : p.eventId with
      | none => simpa [handleMessage, hp] using h
      | some eid =>
          cases hq : p.ticketKey with
          | none => simpa [handleMessage, hp, hq] using h
          | some tk =>
              cases hr : p.vote with
              | none => simpa [handleMessage, hp, hq, hr] using h
              | some v =>
                  simp only [handleMessage, hp, hq, hr]
                  cases hg : dictGet m.events eid with
                  | none => simpa [hg] using h
                  | some ev =>
                      simpa [hg] using h.set
                        (show idsNodup _ by simpa [idsNodup] using h.of_get hg)

theorem applyStep_idsNodup {m : ManagerState} (h : DInv idsNodup m.events)
    (s : Step) (hok : stepOk m s = true) : DInv idsNodup (applyStep m s).events := by
  cases s with
  | msg u im f n => exact handleMessage_idsNodup h u im f n hok
  | disconnect u => exact reconcileLoop_DInv leaveStable_idsNodup u _ _ false h

theorem run_idsNodup (steps : List Step) :
    ∀ {m : ManagerState}, DInv idsNodup m.events → okRun m steps = true →
      DInv idsNodup (run m steps).events := by
  induction steps with
  | nil => intro m h _; exact h
  | cons s rest ih =>
      intro m h hok
      simp only [okRun, Bool.and_eq_true] at hok
      exact ih (applyStep_idsNodup h s hok.1) hok.2

theorem voteTickets_of_absent {ts : List Ticket} {tk : String} (uid : String)
    (v : Int) (h : ∀ t ∈ ts, t.key ≠ tk) : voteTickets ts tk uid v = ts := by
  induction ts with
  | nil => rfl
  | cons t rest ih =>
      have ht : t.key ≠ tk := h t (List.mem_cons_self _ _)
      simp [voteTickets, ht, ih fun t1 ht1 => h t1 (List.mem_cons_of_mem _ ht1)]

theorem findTicket_voteTickets {ts : List Ticket} {tk : String} {t : Ticket}
    (uid : String) (v : Int) (h : findTicket ts tk = some t) :
    findTicket (voteTickets ts tk uid v) tk =
      some { t with votes := dictSet t.votes uid v } := by
  induction ts with
  | nil => simp [findTicket] at h
  | cons t1 rest ih =>
      by_cases hk : t1.key = tk
      · simp [findTicket, hk] at h
        subst h
        simp [voteTickets, findTicket, hk]
      · simp only [findTicket, if_neg hk] at h
        simp [voteTickets, findTicket, hk, ih h]

theorem stable_participants_ne_nil : EventPredStable fun ev => ev.participants ≠ [] := by
  refine ⟨?_, ?_, ?_, ?_⟩
  · intro eid nm hid hname now1
    simp [newEvent]
  · intro ev uid unm h
    simp
  · intro ev uid h hne
    simpa using hne
  · intro ev tk uid v h
    simpa using h

theorem stable_tickets_nil : EventPredStable fun ev => ev.tickets = [] := by
  refine ⟨?_, ?_, ?_, ?_⟩
  · intro eid nm hid hname now1
    simp [newEvent]
  · intro ev uid unm h
    simpa using h
  · intro ev uid h hne
    simpa using h
  · intro ev tk uid v h
    simp only at h ⊢
    rw [h]
    rfl

theorem stable_hosts : EventPredStable fun ev =>
    (ev.participants.filter fun p => p.isHost).length ≤ 1 ∧
      ∀ p ∈ ev.participants, p.isHost = true → p.id = ev.hostId := by
  refine ⟨?_, ?_, ?_, ?_⟩
  · intro eid nm hid hname now1
    simp [newEvent]
  · intro ev uid unm h
    refine ⟨?_, ?_⟩
    · simpa [List.filter_append] using h.1
    · intro p hp hhost
      rcases List.mem_append.mp hp with h1 | h1
      · exact h.2 p h1 hhost
      · simp only [List.mem_singleton] at h1
        rw [h1] at hhost
        simp at hhost
  · intro ev uid h hne
    refine ⟨?_, ?_⟩
    · calc ((ev.participants.filter fun p => p.id ≠ uid).filter fun p => p.isHost).length
          ≤ (ev.participants.filter fun p => p.isHost).length :=
            List.Sublist.length_le
              (List.Sublist.filter _ (List.filter_sublist _))
        _ ≤ 1 := h.1
    · intro p hp hhost
      exact h.2 p (List.mem_of_mem_filter hp) hhost
  · intro ev tk uid v h
    exact h

/-- Claim C1: for every sequence of protocol messages and disconnects run
from a fresh store (covering any session created by `CREATE_EVENT` and
any interleaving of `JOIN_EVENT`/`LEAVE_EVENT` on it), a session id is
present in the Session Store `manager.events` if and only if its
participant list has at least one entry; in particular `LEAVE_EVENT`
deletes a session the moment its participant list becomes empty, so no
stored session is ever empty. -/
theorem session_exists_iff_participants_nonempty (conns : List String)
    (steps : List Step) (eid : String) :
    (dictGet (run (initState conns) steps).events eid).isSome = true ↔
      participantsOf (run (initState conns) steps) eid ≠ [] := by
  have hinv := run_DInv stable_participants_ne_nil steps (initState_DInv _ conns)
  cases hg : dictGet (run (initState conns) steps).events eid with
  | none => simp [participantsOf, hg]
  | some ev =>
      simp only [participantsOf, hg, Option.isSome_some, true_iff]
      exact hinv.of_get hg

/-- Claim C9: every session reachable through the specified protocol
(`CREATE_EVENT`, `JOIN_EVENT`, `LEAVE_EVENT`, `VOTE`, disconnects) has an
empty tickets list at all times: `create_event` initialises `tickets` to
`[]` and no inbound message ever appends a ticket, so the `VOTE` loop
over `event['tickets']` never finds a ticket and never records a vote in
session state. -/
theorem tickets_always_empty (conns : List String) (steps : List Step)
    (eid : String) : ticketsOf (run (initState conns) steps) eid = [] := by
  have hinv := run_DInv stable_tickets_nil steps (initState_DInv _ conns)
  cases hg : dictGet (run (initState conns) steps).events eid with
  | none => simp [ticketsOf, hg]
  | some ev =>
      simp only [ticketsOf, hg]
      exact hinv.of_get hg

/-- Claim C2 (code bug): identity u participates in sessions A (as sole
participant) and B.  On disconnect, the handler removes u from A and
deletes A, but deleting a dict entry while iterating `manager.events`
makes the next iteration step raise `RuntimeError`, so B is never
processed: the uncaught exception escapes (`raised = true`) and u is
still a participant of B afterwards, contradicting the independence the
spec requires. -/
theorem disconnect_second_session_not_cleaned :
    (websocket_disconnect stTwoSessions "u").raised = true ∧
    dictGet (websocket_disconnect stTwoSessions "u").state.events "A" = none ∧
    ((participantsOf (websocket_disconnect stTwoSessions "u").state "B").map
      Participant.id).contains "u" = true := by
  decide

/-- Claim C6 (code bug): a `JOIN_EVENT` whose payload is missing the
required `eventId` field makes `data['payload']['eventId']` raise
`KeyError`; the exception is not a `WebSocketDisconnect`, so it escapes
the receive loop and terminates the connection handler (`raised = true`),
though session state is left unchanged. -/
theorem malformed_join_terminates_handler :
    handleMessage stOneSession "u" (.JOIN_EVENT (Payload.mk none none none none))
      "f" "t" = ⟨stOneSession, [], true⟩ := by
  decide

/-- Claim C3 (counterexample): `join_event` performs no de-duplication,
so after h creates session S and u sends `JOIN_EVENT` twice, the
participant list of S holds two entries with id u — the ids are not
pairwise distinct, refuting the claimed invariant on this reachable
state. -/
theorem duplicate_join_counterexample :
    ¬ ((participantsOf (run (initState ["h", "u"])
        [ .msg "h" (.CREATE_EVENT { name := some "S" }) "S" "t0"
        , .msg "u" (.JOIN_EVENT { eventId := some "S" }) "f1" "t1"
        , .msg "u" (.JOIN_EVENT { eventId := some "S" }) "f2" "t2" ]) "S").map
      Participant.id).Nodup := by
  decide

/-- Claim C3 (amended): the participant ids of every stored session stay
pairwise distinct over any sequence of protocol messages and disconnects,
provided no `JOIN_EVENT` is sent by an identity that already appears in
the target session's participant list; a `JOIN_EVENT` from an existing
participant appends a duplicate entry (no de-duplication in the code). -/
theorem participants_nodup_without_rejoin (conns : List String)
    (steps : List Step) (eid : String)
    (h : okRun (initState conns) steps = true) :
    ((participantsOf (run (initState conns) steps) eid).map
      Participant.id).Nodup := by
  have hinv := run_idsNodup steps (initState_DInv _ conns) h
  cases hg : dictGet (run (initState conns) steps).events eid with
  | none => simp [participantsOf, hg]
  | some ev =>
      simp only [participantsOf, hg]
      exact hinv.of_get hg

/-- Witness for the amended C3 theorem: a concrete run where two distinct
identities create and join a session satisfies the no-rejoin guard and
yields pairwise-distinct participant ids. -/
theorem participants_nodup_without_rejoin_witness :
    okRun (initState ["h", "u"])
      [ .msg "h" (.CREATE_EVENT { name := some "S" }) "S" "t0"
      , .msg "u" (.JOIN_EVENT { eventId := some "S" }) "f1" "t1" ] = true ∧
    ((participantsOf (run (initState ["h", "u"])
        [ .msg "h" (.CREATE_EVENT { name := some "S" }) "S" "t0"
        , .msg "u" (.JOIN_EVENT { eventId := some "S" }) "f1" "t1" ]) "S").map
      Participant.id).Nodup :=
  ⟨by decide, participants_nodup_without_rejoin ["h", "u"]
    [ .msg "h" (.CREATE_EVENT { name := some "S" }) "S" "t0"
    , .msg "u" (.JOIN_EVENT { eventId := some "S" }) "f1" "t1" ] "S" (by decide)⟩

/-- Claim C4 (counterexample): h creates session S, u joins, then h sends
`LEAVE_EVENT`.  The session survives (u remains) but no participant has
`isHost = true` any more, refuting "exactly one host for the session's
entire lifetime". -/
theorem host_leave_counterexample :
    (dictGet (run (initState ["h", "u"])
        [ .msg "h" (.CREATE_EVENT { name := some "S" }) "S" "t0"
        , .msg "u" (.JOIN_EVENT { eventId := some "S" }) "f1" "t1"
        , .msg "h" (.LEAVE_EVENT { eventId := some "S" }) "f2" "t2" ]).events
      "S").isSome = true ∧
    ((participantsOf (run (initState ["h", "u"])
        [ .msg "h" (.CREATE_EVENT { name := some "S" }) "S" "t0"
        , .msg "u" (.JOIN_EVENT { eventId := some "S" }) "f1" "t1"
        , .msg "h" (.LEAVE_EVENT { eventId := some "S" }) "f2" "t2" ]) "S").filter
      fun p => p.isHost).length = 0 := by
  decide

/-- Claim C4 (amended): every stored session always has at most one
participant with `isHost = true`, and any such participant is the
creating identity (`hostId`); exactly one host is guaranteed only until
the creating participant leaves or disconnects — after that a surviving
session has zero hosts. -/
theorem hosts_at_most_one (conns : List String) (steps : List Step)
    (eid : String) (ev : Event)
    (h : dictGet (run (initState conns) steps).events eid = some ev) :
    (ev.participants.filter fun p => p.isHost).length ≤ 1 ∧
      ∀ p ∈ ev.participants, p.isHost = true → p.id = ev.hostId := by
  have hinv := run_DInv stable_hosts steps (initState_DInv _ conns)
  exact hinv.of_get h

/-- Witness for the amended C4 theorem at a freshly created session. -/
theorem hosts_at_most_one_witness :
    ((newEvent "S" "N" "h" "N" "t0").participants.filter fun p => p.isHost).length ≤ 1 ∧
      ∀ p ∈ (newEvent "S" "N" "h" "N" "t0").participants, p.isHost = true →
        p.id = (newEvent "S" "N" "h" "N" "t0").hostId :=
  hosts_at_most_one ["h"]
    [ .msg "h" (.CREATE_EVENT { name := some "N" }) "S" "t0" ] "S"
    (newEvent "S" "N" "h" "N" "t0") (by decide)

/-- Claim C5 (counterexample): a `VOTE` naming existing session S but a
ticketKey matching no ticket leaves the state unchanged — yet the handler
still broadcasts a `VOTE_RECEIVED` message to the session's participants
(the broadcast sits outside the ticket-search loop), refuting "no
VOTE_RECEIVED broadcast is sent to anyone". -/
theorem vote_absent_ticket_counterexample :
    ((handleMessage stOneSession "u"
        (.VOTE (Payload.mk none (some "S") (some "T1") (some 5))) "f" "t").sent.any
      fun s => isVoteReceived s.body) = true ∧
    (handleMessage stOneSession "u"
        (.VOTE (Payload.mk none (some "S") (some "T1") (some 5))) "f" "t").state =
      stOneSession := by
  decide

/-- Claim C5 (amended): a `VOTE` naming an existing session but a
ticketKey matching no ticket of that session leaves the session state
unchanged and surfaces no error to the sender, but the handler still
broadcasts `VOTE_RECEIVED` (with the unchanged session snapshot) to the
session's connected participants. -/
theorem vote_absent_ticket_broadcasts_anyway (m : ManagerState) (u : String)
    (p : Payload) (eid tk : String) (v : Int) (ev : Event) (f n : String)
    (h1 : p.eventId = some eid) (h2 : p.ticketKey = some tk)
    (h3 : p.vote = some v) (h4 : dictGet m.events eid = some ev)
    (h5 : ∀ t ∈ ev.tickets, t.key ≠ tk) :
    handleMessage m u (.VOTE p) f n =
      ⟨m, broadcast_to_event m (.VOTE_RECEIVED ev tk u v) eid, false⟩ := by
  have hvt : voteTickets ev.tickets tk u v = ev.tickets :=
    voteTickets_of_absent u v h5
  have hee : ({ ev with tickets := voteTickets ev.tickets tk u v } : Event) = ev := by
    rw [hvt]
  have hds : dictSet m.events eid ev = m.events := dictSet_self_of_get h4
  have hmm : ({ m with events := m.events } : ManagerState) = m := rfl
  simp only [handleMessage, h1, h2, h3, h4, hee, hds, hmm]

/-- Witness for the amended C5 theorem on a concrete ticketless session. -/
theorem vote_absent_ticket_broadcasts_anyway_witness :
    handleMessage stOneSession "u"
        (.VOTE (Payload.mk none (some "S") (some "T1") (some 5))) "f" "t" =
      ⟨stOneSession, broadcast_to_event stOneSession
        (.VOTE_RECEIVED
          { id := "S", name := "Sprint 4", createdAt := "t0", hostId := "h"
            participants := [{ id := "h", name := "Sprint 4", isHost := true },
                             { id := "u", name := "Anonymous", isHost := false }]
            tickets := [], currentTicketIndex := 0, status := "active" }
          "T1" "u" 5) "S", false⟩ :=
  vote_absent_ticket_broadcasts_anyway stOneSession "u" _ "S" "T1" 5 _ "f" "t"
    rfl rfl rfl (by decide) (by decide)

/-- Claim C7: a `JOIN_EVENT` whose eventId names no stored session makes
the handler unicast exactly one `ERROR` message with text "Event not
found" to the sender, with no state change and no broadcast to anyone
(the result's delivered-message list is exactly that singleton). -/
theorem join_missing_event_error (m : ManagerState) (u : String) (p : Payload)
    (eid f n : String) (h1 : p.eventId = some eid)
    (h2 : dictGet m.events eid = none)
    (h3 : m.activeConnections.contains u = true) :
    handleMessage m u (.JOIN_EVENT p) f n =
      ⟨m, [⟨u, MsgBody.ERROR "Event not found"⟩], false⟩ := by
  have h3m : u ∈ m.activeConnections := by simpa using h3
  simp [handleMessage, h1, h2, send_personal_message, h3m]

/-- Witness for the C7 theorem at a concrete empty store. -/
theorem join_missing_event_error_witness :
    handleMessage (initState ["u1"]) "u1"
        (.JOIN_EVENT (Payload.mk none (some "missing") none none)) "f" "t" =
      ⟨initState ["u1"], [⟨"u1", MsgBody.ERROR "Event not found"⟩], false⟩ :=
  join_missing_event_error (initState ["u1"]) "u1" _ "missing" "f" "t"
    rfl rfl (by decide)

/-- Claim C8: when a session holds a ticket with key tk, a participant
voting v1 and then v2 on it leaves the ticket's votes dict with exactly
one entry for that participant's id, whose value is v2 (the assignment
`ticket['votes'][userId] = vote` overwrites in place). -/
theorem revote_overwrites (m : ManagerState) (u eid tk : String) (v1 v2 : Int)
    (ev : Event) (t : Ticket) (f1 n1 f2 n2 : String)
    (h1 : dictGet m.events eid = some ev)
    (h2 : findTicket ev.tickets tk = some t)
    (h3 : countKey t.votes u ≤ 1) :
    findTicket (ticketsOf (handleMessage (handleMessage m u
        (.VOTE (Payload.mk none (some eid) (some tk) (some v1))) f1 n1).state u
        (.VOTE (Payload.mk none (some eid) (some tk) (some v2))) f2 n2).state eid) tk =
      some { t with votes := dictSet t.votes u v2 } ∧
    countKey (dictSet t.votes u v2) u = 1 ∧
    dictGet (dictSet t.votes u v2) u = some v2 := by
  have e1 : (handleMessage m u
      (.VOTE (Payload.mk none (some eid) (some tk) (some v1))) f1 n1).state =
      { m with events := dictSet m.events eid ({ ev with tickets := voteTickets ev.tickets tk u v1 }) } := by
    simp [handleMessage, h1]
  have hf1 : findTicket (voteTickets ev.tickets tk u v1) tk =
      some { t with votes := dictSet t.votes u v1 } := findTicket_voteTickets u v1 h2
  have hf2 : findTicket (voteTickets (voteTickets ev.tickets tk u v1) tk u v2) tk =
      some { t with votes := dictSet t.votes u v2 } := by
    have h12 := findTicket_voteTickets u v2 hf1
    rw [h12, dictSet_dictSet]
  have hts : ticketsOf (handleMessage (handleMessage m u
      (.VOTE (Payload.mk none (some eid) (some tk) (some v1))) f1 n1).state u
      (.VOTE (Payload.mk none (some eid) (some tk) (some v2))) f2 n2).state eid =
      voteTickets (voteTickets ev.tickets tk u v1) tk u v2 := by
    rw [ticketsOf, e1]
    simp [handleMessage, dictGet_dictSet_self]
  refine ⟨?_, ?_, dictGet_dictSet_self _ _ _⟩
  · rw [hts]
    exact hf2
  · rw [countKey_dictSet]
    omega

/-- Witness for the C8 theorem on a concrete session holding ticket T1. -/
theorem revote_overwrites_witness :
    findTicket (ticketsOf (handleMessage (handleMessage stWithTicket "u"
        (.VOTE (Payload.mk none (some "S") (some "T1") (some 2))) "f1" "n1").state "u"
        (.VOTE (Payload.mk none (some "S") (some "T1") (some 5))) "f2" "n2").state "S") "T1" =
      some { key := "T1", votes := [("u", (5 : Int))] } ∧
    countKey ([("u", (5 : Int))]) "u" = 1 ∧
    dictGet ([("u", (5 : Int))]) "u" = some (5 : Int) :=
  revote_overwrites stWithTicket "u" "S" "T1" 2 5
    { id := "S", name := "Sprint 4", createdAt := "t0", hostId := "h"
      participants := [{ id := "h", name := "Sprint 4", isHost := true },
                       { id := "u", name := "Anonymous", isHost := false }]
      tickets := [{ key := "T1", votes := [] }]
      currentTicketIndex := 0, status := "active" }
    { key := "T1", votes := [] } "f1" "n1" "f2" "n2"
    (by decide) (by decide) (by decide)

/-- Claim C10: a successful `CREATE_EVENT` never raises, stores the fresh
session, and — because both the session name and the host display name
are read from the same payload field `name` — the sole host participant's
display name equals the session's name (so the `Anonymous` default for
the host is unreachable whenever the session name is present; without it
the whole `CREATE_EVENT` raises and no session is created). -/
theorem create_host_name_matches (m : ManagerState) (u : String) (p : Payload)
    (nm f n : String) (h : p.name = some nm) :
    (handleMessage m u (.CREATE_EVENT p) f n).raised = false ∧
    dictGet (handleMessage m u (.CREATE_EVENT p) f n).state.events f =
      some (newEvent f nm u nm n) ∧
    (newEvent f nm u nm n).participants =
      [{ id := u, name := (newEvent f nm u nm n).name, isHost := true }] := by
  have hget : dictGet (create_event m f nm u nm n).events f =
      some (newEvent f nm u nm n) := by
    unfold create_event
    exact dictGet_dictSet_self _ _ _
  refine ⟨?_, ?_, rfl⟩
  · simp [handleMessage, h, hget]
  · simp [handleMessage, h, hget]

/-- Witness for the C10 theorem at a concrete creation. -/
theorem create_host_name_matches_witness :
    (handleMessage (initState ["h"]) "h"
        (.CREATE_EVENT (Payload.mk (some "Sprint 4") none none none)) "S" "t0").raised = false ∧
    dictGet (handleMessage (initState ["h"]) "h"
        (.CREATE_EVENT (Payload.mk (some "Sprint 4") none none none)) "S" "t0").state.events "S" =
      some (newEvent "S" "Sprint 4" "h" "Sprint 4" "t0") ∧
    (newEvent "S" "Sprint 4" "h" "Sprint 4" "t0").participants =
      [{ id := "h", name := (newEvent "S" "Sprint 4" "h" "Sprint 4" "t0").name,
         isHost := true }] :=
  create_host_name_matches (initState ["h"]) "h" _ "Sprint 4" "S" "t0" rfl

end PollApp
